import Mathlib

/-!
# Verification of the ethercrab EtherCAT main-device core

A shallow embedding of `src/client.rs` and `src/error.rs` (the main-device
façade over the PDU loop), together with the EEPROM size computation of
`examples/dump-eeprom.rs`.  Modules of the crate that are not present under
`src/` (`command.rs`, `pdu_loop.rs`, `register.rs`, `al_control.rs`,
`slave_state.rs`, `slave.rs`, `pdu.rs`, `lib.rs` constants) are modelled from
the specification; each such definition carries a doc comment saying so.

The network is modelled as a deterministic bus: a function from the number of
datagrams issued so far and the request to the response payload bytes and the
working counter.  Client operations thread a `BusState` recording the trace of
emitted events (datagrams and inter-poll delays).
-/

deriving instance DecidableEq for Except

namespace Ethercrab

/-- Modelled from the spec: `command.rs` is not under `src/`.  §3 "Command": a
tagged value enumerating EtherCAT addressing modes, carrying
`(node_address, register_or_offset)` or a 32-bit logical address. -/
inductive Command where
  | Brd (address register : Nat)
  | Bwr (address register : Nat)
  | Brw (address register : Nat)
  | Aprd (address register : Nat)
  | Apwr (address register : Nat)
  | Aprw (address register : Nat)
  | Fprd (address register : Nat)
  | Fpwr (address register : Nat)
  | Fprw (address register : Nat)
  | Lrd (address : Nat)
  | Lwr (address : Nat)
  | Lrw (address : Nat)
deriving DecidableEq

/-- The address field of a command (auto-increment / station / logical). -/
def Command.address : Command → Nat
  | .Brd a _ => a
  | .Bwr a _ => a
  | .Brw a _ => a
  | .Aprd a _ => a
  | .Apwr a _ => a
  | .Aprw a _ => a
  | .Fprd a _ => a
  | .Fpwr a _ => a
  | .Fprw a _ => a
  | .Lrd a => a
  | .Lwr a => a
  | .Lrw a => a

/-- `error.rs` lines 15-25: the PDU-level error kinds (payloads of the
`CreateFrame`/`Encode` variants are abstracted). -/
inductive PduError where
  | Timeout
  | IndexInUse
  | Send
  | Decode
  | TooLong
  | CreateFrame
  | Encode
  | Address
deriving DecidableEq

/-- `error.rs` lines 3-13: the top-level error type. -/
inductive Error where
  | Pdu (e : PduError)
  | WorkingCounter (expected received : Nat) (context : Option String)
  | TooManySlaves
deriving DecidableEq

/-- `error.rs` lines 34-58, the `check_working_counter!` macro (with a
context message): `Ok` when received equals expected, else a
`WorkingCounter` error carrying `(expected, received, context)`. -/
def check_working_counter (received expected : Nat) (context : String) :
    Except Error Unit :=
  if received = expected then Except.ok ()
  else Except.error (Error.WorkingCounter expected received (some context))

/-- The semantics of Rust `a.wrapping_sub(b)` on `u16`. -/
def wrapping_sub_u16 (a b : Nat) : Nat :=
  (a % 65536 + 65536 - b % 65536) % 65536

/-- Little-endian byte pair for a `u16` value. -/
def u16_le_bytes (v : Nat) : List Nat := [v % 256, v / 256 % 256]

/-- Modelled from the spec: register numerics follow ETG.1000.4 (§6 gives
`ConfiguredStationAddress` at 0x0010, FMMU0 at 0x0600, SM0 at 0x0800;
`register.rs` is not under `src/`).  The DL `Type` register is 0x0000. -/
def regType : Nat := 0x0000

/-- Modelled from the spec §6: `ConfiguredStationAddress` register 0x0010. -/
def regConfiguredStationAddress : Nat := 0x0010

/-- Modelled from the spec §6 / ETG.1000.4: `AlControl` register 0x0120. -/
def regAlControl : Nat := 0x0120

/-- Modelled from the spec §6 / ETG.1000.4: `AlStatus` register 0x0130. -/
def regAlStatus : Nat := 0x0130

/-- Modelled from the spec §6: `Fmmu0` register 0x0600. -/
def regFmmu0 : Nat := 0x0600

/-- Modelled from the spec §6: `Sm0` register 0x0800. -/
def regSm0 : Nat := 0x0800

/-- Modelled from the spec: `lib.rs` is not under `src/`; scenario S1 says the
three discovered sub-devices get configured addresses 0x1000, 0x1001, 0x1002,
so `BASE_SLAVE_ADDR = 0x1000`. -/
def BASE_SLAVE_ADDR : Nat := 0x1000

/-- Modelled from the spec §4.5: AL states are Init, PreOp, Boot, SafeOp, Op
(`slave_state.rs` is not under `src/`).  Wire codes follow ETG.1000.6. -/
inductive SlaveState where
  | init
  | preOp
  | boot
  | safeOp
  | op
deriving DecidableEq

/-- AL state wire code (ETG.1000.6). -/
def SlaveState.code : SlaveState → Nat
  | .init => 1
  | .preOp => 2
  | .boot => 3
  | .safeOp => 4
  | .op => 8

/-- Decode an AL state wire code. -/
def SlaveState.from_code (n : Nat) : Option SlaveState :=
  if n = 1 then some .init
  else if n = 2 then some .preOp
  else if n = 3 then some .boot
  else if n = 4 then some .safeOp
  else if n = 8 then some .op
  else none

/-- Modelled from the spec: `al_control.rs` is not under `src/`.  The
`AlControl` register value; only the `state` field matters to the claims
(`wait_for_state` compares `status.state` with the desired state). -/
structure AlControl where
  state : SlaveState
deriving DecidableEq

/-- `AlControl` is a 2-byte packed struct; byte 0 carries the state code. -/
def AlControl.pack (a : AlControl) : List Nat := [a.state.code, 0]

/-- Decode an `AlControl` from its 2 response bytes; an unknown state code is
a decode failure. -/
def AlControl.unpack (data : List Nat) : Option AlControl :=
  match data with
  | [b0, _b1] => (SlaveState.from_code b0).map AlControl.mk
  | _ => none

/-- Modelled from the spec §4.5: `AlControl::reset()` requests the Init
state (step 1 of `init`: "broadcast-write `AlControl::reset()`"). -/
def AlControl.reset : AlControl := ⟨SlaveState.init⟩

/-- Modelled from the spec §4.4: a PDU value type "knows its serialised byte
length and how to decode itself from a byte slice" (`pdu.rs` is not under
`src/`).  `u8` decodes from exactly one byte. -/
def try_from_slice_u8 (data : List Nat) : Option Nat :=
  match data with
  | [b] => some b
  | _ => none

/-- Modelled from the spec §4.4: `u16` decodes little-endian from exactly two
bytes. -/
def try_from_slice_u16 (data : List Nat) : Option Nat :=
  match data with
  | [b0, b1] => some (b0 % 256 + 256 * (b1 % 256))
  | _ => none

/-- Modelled from the spec §4.4: a `[u8; N]` byte array decodes from exactly
`n` bytes. -/
def try_from_slice_bytes (n : Nat) (data : List Nat) : Option (List Nat) :=
  if data.length = n then some data else none

/-- Decode an `AlControl` (used by `brd::<AlControl>` and
`bwr::<AlControl>`); failure maps to `PduError::Decode`. -/
def try_from_slice_al_control (data : List Nat) : Option AlControl :=
  AlControl.unpack data

/-- A datagram request: the command, outgoing payload and expected response
length handed to `pdu_tx`. -/
structure Request where
  command : Command
  payload : List Nat
  expectedLen : Nat
deriving DecidableEq

/-- An observable event of the client: a datagram issued on the bus, or an
inter-poll timer delay in milliseconds (`TIMEOUT::timer`). -/
inductive Event where
  | pdu (req : Request)
  | delay (ms : Nat)
deriving DecidableEq

/-- The bus: a deterministic response (payload bytes, working counter) for
each request, indexed by how many datagrams were issued before it. -/
abbrev Bus := Nat → Request → List Nat × Nat

/-- The state threaded through client operations: the number of datagrams
issued so far and the trace of emitted events. -/
structure BusState where
  time : Nat
  trace : List Event
deriving DecidableEq

/-- Modelled from the spec §4.3: `pdu_tx(command, payload_in,
expected_response_len) -> (payload_out, working_counter)` (`pdu_loop.rs` is
not under `src/`).  Transport failures (Timeout, IndexInUse, Send) are
abstracted by the deterministic bus response. -/
def pdu_tx (bus : Bus) (st : BusState) (cmd : Command) (payload : List Nat)
    (len : Nat) : (List Nat × Nat) × BusState :=
  let req : Request := ⟨cmd, payload, len⟩
  (bus st.time req, ⟨st.time + 1, st.trace ++ [Event.pdu req]⟩)

/-- `client.rs` lines 179-198, `read_service`: issue the command with an
empty payload, then decode the response; a decode failure is
`PduError::Decode`. -/
def read_service (bus : Bus) (st : BusState) (cmd : Command) (len : Nat)
    (dec : List Nat → Option α) : Except Error (α × Nat) × BusState :=
  let r := pdu_tx bus st cmd [] len
  match dec r.1.1 with
  | some v => (Except.ok (v, r.1.2), r.2)
  | none => (Except.error (Error.Pdu PduError.Decode), r.2)

/-- `client.rs` lines 200-213, `write_service`: issue the command with the
value's bytes, then decode the response; a decode failure is
`PduError::Decode`. -/
def write_service (bus : Bus) (st : BusState) (cmd : Command)
    (payload : List Nat) (len : Nat) (dec : List Nat → Option α) :
    Except Error (α × Nat) × BusState :=
  let r := pdu_tx bus st cmd payload len
  match dec r.1.1 with
  | some v => (Except.ok (v, r.1.2), r.2)
  | none => (Except.error (Error.Pdu PduError.Decode), r.2)

/-- `client.rs` lines 253-256: the command built by `aprd`, with address
field `0u16.wrapping_sub(address)`. -/
def aprd_command (address register : Nat) : Command :=
  Command.Aprd (wrapping_sub_u16 0 address) register

/-- `client.rs` lines 270-274: the command built by `apwr`, with address
field `0u16.wrapping_sub(address)`. -/
def apwr_command (address register : Nat) : Command :=
  Command.Apwr (wrapping_sub_u16 0 address) register

end Ethercrab

namespace Ethercrab

/-- `client.rs` lines 18-24: the client records the PDU loop handle and a
`num_slaves` cell; only `num_slaves` is observable state. -/
structure Client where
  num_slaves : Nat
deriving DecidableEq

/-- `client.rs` lines 36-50, `Client::new`: asserts `MAX_FRAMES <=
u8::MAX` ("Packet indexes are u8s"), i.e. aborts unless `MAX_FRAMES ≤ 255`;
on success the client starts with `num_slaves = 0`. -/
def Client.new (maxFrames : Nat) : Option Client :=
  if maxFrames ≤ 255 then some ⟨0⟩ else none

/-- `client.rs` lines 140-142, `Client::num_slaves`. -/
def Client.num_slaves_fn (c : Client) : Nat := c.num_slaves

/-- `client.rs` lines 55-58: the chunk start registers produced by Rust
`(start..start + len).step_by(step)`. -/
def chunk_starts (start len step : Nat) : List Nat :=
  (List.range ((len + step - 1) / step)).map (fun i => start + i * step)

/-- The broadcast-write request emitted for one zeroing chunk of
`blank_memory` (`client.rs` lines 59-66): `Bwr { address: 0, register:
chunk_start }` carrying `[0u8; MAX_PDU_DATA]`. -/
def blank_chunk_req (maxPduData c : Nat) : Request :=
  ⟨Command.Bwr 0 c, List.replicate maxPduData 0, maxPduData⟩

/-- The inner loop of `blank_memory` over the chunk starts. -/
def blank_chunks (bus : Bus) (maxPduData : Nat) :
    List Nat → BusState → Except Error Unit × BusState
  | [], st => (Except.ok (), st)
  | c :: rest, st =>
    match write_service bus st (Command.Bwr 0 c)
        (List.replicate maxPduData 0) maxPduData
        (try_from_slice_bytes maxPduData) with
    | (Except.error e, st1) => (Except.error e, st1)
    | (Except.ok _, st1) => blank_chunks bus maxPduData rest st1

/-- `client.rs` lines 52-70, `blank_memory`: write zeroes in broadcast-write
chunks of `MAX_PDU_DATA` bytes, starting every `MAX_PDU_DATA` registers over
`start..start + len`. -/
def blank_memory (bus : Bus) (maxPduData start len : Nat) (st : BusState) :
    Except Error Unit × BusState :=
  blank_chunks bus maxPduData (chunk_starts start len maxPduData) st

/-- The broadcast-write request emitted by `reset_slaves` for
`AlControl::reset()` (`client.rs` lines 74-78). -/
def reset_req : Request := ⟨Command.Bwr 0 regAlControl, AlControl.pack AlControl.reset, 2⟩

/-- `client.rs` lines 72-87, `reset_slaves`: broadcast-write
`AlControl::reset()`, then blank the FMMU memory (`Fmmu0`, 0xFF bytes) and
the SM memory (`Sm0`, 0x7F bytes). -/
def reset_slaves (bus : Bus) (maxPduData : Nat) (st : BusState) :
    Except Error Unit × BusState :=
  match write_service bus st (Command.Bwr 0 regAlControl)
      (AlControl.pack AlControl.reset) 2 try_from_slice_al_control with
  | (Except.error e, st1) => (Except.error e, st1)
  | (Except.ok _, st1) =>
    match blank_memory bus maxPduData regFmmu0 0xff st1 with
    | (Except.error e, st2) => (Except.error e, st2)
    | (Except.ok _, st2) => blank_memory bus maxPduData regSm0 0x7f st2

/-- Modelled from the spec §4.5 step 3: `slave.rs` is not under `src/`;
`Slave::new(client, configured_address)` constructs a handle from the
configured station address (its identity and name reads over FPRD/EEPROM are
abstracted as succeeding without bus traffic). -/
structure Slave where
  configured_address : Nat
deriving DecidableEq

/-- The APWR request issued by `init` for slave index `i` (`client.rs` lines
107-116): auto-increment address `0u16.wrapping_sub(i)`, register
`ConfiguredStationAddress`, value `BASE_SLAVE_ADDR + i` as a `u16`. -/
def set_address_req (i : Nat) : Request :=
  ⟨apwr_command i regConfiguredStationAddress,
    u16_le_bytes (BASE_SLAVE_ADDR + i), 2⟩

/-- The station-address assignment loop of `init` (`client.rs` lines
106-121): for each `slave_idx` in `0..num_slaves`, APWR the configured
address, require working counter 1 ("set station address"), and collect the
constructed `Slave`. -/
def set_addresses (bus : Bus) (idx : Nat) :
    Nat → List Slave → BusState → Except Error (List Slave) × BusState
  | 0, acc, st => (Except.ok acc.reverse, st)
  | remaining + 1, acc, st =>
    let configuredAddress := BASE_SLAVE_ADDR + idx
    match write_service bus st (apwr_command idx regConfiguredStationAddress)
        (u16_le_bytes configuredAddress) 2 try_from_slice_u16 with
    | (Except.error e, st1) => (Except.error e, st1)
    | (Except.ok (_, wkc), st1) =>
      match check_working_counter wkc 1 "set station address" with
      | Except.error e => (Except.error e, st1)
      | Except.ok _ =>
        set_addresses bus (idx + 1) remaining
          (Slave.mk configuredAddress :: acc) st1

/-- `client.rs` lines 99-121, the discovery phase of `Client::init`:
`reset_slaves`, then `brd::<u8>(Type)` whose working counter becomes
`num_slaves`, then the station-address assignment loop.  The subsequent group
configuration and SafeOp transition (lines 123-137) live in
`slave_group.rs`, which is not under `src/`, and are outside this model. -/
def init_discovery (bus : Bus) (maxPduData : Nat) (_client : Client)
    (st : BusState) : Except Error (Client × List Slave) × BusState :=
  match reset_slaves bus maxPduData st with
  | (Except.error e, st1) => (Except.error e, st1)
  | (Except.ok _, st1) =>
    match read_service bus st1 (Command.Brd 0 regType) 1 try_from_slice_u8 with
    | (Except.error e, st2) => (Except.error e, st2)
    | (Except.ok (_res, numSlaves), st2) =>
      let client1 : Client := ⟨numSlaves⟩
      match set_addresses bus 0 numSlaves [] st2 with
      | (Except.error e, st3) => (Except.error e, st3)
      | (Except.ok slaves, st3) => (Except.ok (client1, slaves), st3)

/-- The broadcast-read request polling `AlStatus` (`client.rs` lines
164-166): `brd::<AlControl>(AlStatus)` with a 2-byte expected response. -/
def al_status_poll_req : Request := ⟨Command.Brd 0 regAlStatus, [], 2⟩

/-- `client.rs` lines 158-176, `wait_for_state`: poll `brd::<AlControl>`
of `AlStatus`, require working counter `num_slaves` ("read all slaves
state") on every poll, succeed when the returned `state` equals the desired
state, and sleep 10 ms between polls.  The source bounds the whole loop by a
5000 ms timeout; the model bounds it by `fuel` polls, returning the loop's
`PduError::Timeout` when the fuel is exhausted. -/
def wait_for_state (bus : Bus) (numSlaves : Nat) (desired : SlaveState) :
    Nat → BusState → Except Error Unit × BusState
  | 0, st => (Except.error (Error.Pdu PduError.Timeout), st)
  | fuel + 1, st =>
    match read_service bus st (Command.Brd 0 regAlStatus) 2
        try_from_slice_al_control with
    | (Except.error e, st1) => (Except.error e, st1)
    | (Except.ok (status, wkc), st1) =>
      match check_working_counter wkc numSlaves "read all slaves state" with
      | Except.error e => (Except.error e, st1)
      | Except.ok _ =>
        if status.state = desired then (Except.ok (), st1)
        else
          wait_for_state bus numSlaves desired fuel
            ⟨st1.time, st1.trace ++ [Event.delay 10]⟩

/-- The broadcast-write request issued by `request_slave_state`
(`client.rs` lines 148-151): `AlControl::new(desired_state)` to
`AlControl`. -/
def al_control_write_req (desired : SlaveState) : Request :=
  ⟨Command.Bwr 0 regAlControl, AlControl.pack ⟨desired⟩, 2⟩

/-- `client.rs` lines 145-156, `request_slave_state`: broadcast-write
`AlControl::new(desired_state)`, require working counter `num_slaves`
("set all slaves state"), then `wait_for_state`. -/
def request_slave_state (bus : Bus) (client : Client) (desired : SlaveState)
    (fuel : Nat) (st : BusState) : Except Error Unit × BusState :=
  let numSlaves := client.num_slaves
  match write_service bus st (Command.Bwr 0 regAlControl)
      (AlControl.pack ⟨desired⟩) 2 try_from_slice_al_control with
  | (Except.error e, st1) => (Except.error e, st1)
  | (Except.ok (_, wkc), st1) =>
    match check_working_counter wkc numSlaves "set all slaves state" with
    | Except.error e => (Except.error e, st1)
    | Except.ok _ => wait_for_state bus numSlaves desired fuel st1

/-- The LRW request emitted by `lrw_buf` (`client.rs` lines 340-343):
payload is the buffer, expected response length is `value.len() as u16`,
i.e. the length truncated mod 2^16. -/
def lrw_buf_req (address : Nat) (buf : List Nat) : Request :=
  ⟨Command.Lrw address, buf, buf.length % 65536⟩

/-- `client.rs` lines 333-352, `lrw_buf`: issue one LRW datagram carrying
the buffer with expected length `value.len() as u16`; if the response length
differs from the buffer length fail with `PduError::Decode` leaving the
buffer untouched, otherwise copy the response into the buffer and return it
with the working counter.  The second component is the buffer after the
call. -/
def lrw_buf (bus : Bus) (st : BusState) (address : Nat) (buf : List Nat) :
    (Except Error Nat × List Nat) × BusState :=
  let r := pdu_tx bus st (Command.Lrw address) buf (buf.length % 65536)
  if r.1.1.length ≠ buf.length then
    ((Except.error (Error.Pdu PduError.Decode), buf), r.2)
  else
    ((Except.ok r.1.2, r.1.1), r.2)

/-- The semantics of Rust `u16::from_le_bytes([b0, b1])`. -/
def u16_from_le_bytes (b0 b1 : Nat) : Nat := b0 % 256 + 256 * (b1 % 256)

/-- `examples/dump-eeprom.rs` line 106: the EEPROM length in bytes computed
from the two bytes of register 0x003E, `((u16::from_le_bytes(len_buf) + 1) *
1024) / 8` — `u16` arithmetic, so the sum and the product wrap mod 2^16 (in
a debug build the overflow panics instead). -/
def eeprom_len_bytes (b0 b1 : Nat) : Nat :=
  (u16_from_le_bytes b0 b1 + 1) % 65536 * 1024 % 65536 / 8

/-- Byte address `a` is written by some zeroing chunk of
`blank_memory start len step`: it lies in `[c, c + step)` for a chunk start
`c` (each chunk datagram carries exactly `step` zero bytes). -/
def covered (start len step a : Nat) : Prop :=
  ∃ c ∈ chunk_starts start len step, c ≤ a ∧ a < c + step

instance (start len step a : Nat) : Decidable (covered start len step a) := by
  unfold covered; infer_instance

/-- The events `wait_for_state` emits when the desired state is first
reported on poll `k` (zero-based): `k` polls each followed by a 10 ms delay,
then the successful poll. -/
def poll_trace : Nat → List Event
  | 0 => [Event.pdu al_status_poll_req]
  | k + 1 => Event.pdu al_status_poll_req :: Event.delay 10 :: poll_trace k

/-- A test bus that echoes each request's payload with working counter 1. -/
def bus_one : Bus := fun _ req => (req.payload, 1)

/-- A test bus realising spec scenario S2: broadcast reads answer with
working counter 3 (three sub-devices); every other datagram echoes its
payload with working counter 1. -/
def busS2 : Bus := fun _ req =>
  match req.command with
  | Command.Brd _ _ => (List.replicate req.expectedLen 0, 3)
  | _ => (if req.payload.length = req.expectedLen then req.payload
          else List.replicate req.expectedLen 0, 1)

/-- A test bus that echoes each request's payload with working counter 0. -/
def bus_zero : Bus := fun _ req => (req.payload, 0)

/-- A test bus for the AL state machine with two sub-devices: broadcast
writes echo their payload; status polls report `Init` for the first poll
(time 1) and `SafeOp` from time 2 on; every working counter is 2. -/
def busC4 : Bus := fun t req =>
  match req.command with
  | Command.Bwr _ _ => (req.payload, 2)
  | _ => (AlControl.pack ⟨if 2 ≤ t then SlaveState.safeOp else SlaveState.init⟩, 2)

/-- A test bus whose status polls always report `SafeOp`, working counter
2. -/
def busC5 : Bus := fun _ _ => (AlControl.pack ⟨SlaveState.safeOp⟩, 2)

/-- A test bus answering every datagram with the 3-byte payload `[4, 5, 6]`
and working counter 9. -/
def bus_lrw_full : Bus := fun _ _ => ([4, 5, 6], 9)

/-- A test bus answering every datagram with an empty payload and working
counter 9. -/
def bus_lrw_short : Bus := fun _ _ => ([], 9)

/-! ## Helper lemmas -/

/-- Packing then unpacking an `AlControl` value is the identity. -/
theorem al_control_unpack_pack (a : AlControl) :
    try_from_slice_al_control (AlControl.pack a) = some a := by
  cases a with
  | mk s => cases s <;> rfl

/-- A 2-byte response always decodes as a `u16`. -/
theorem try_from_slice_u16_of_len (data : List Nat) (h : data.length = 2) :
    ∃ v, try_from_slice_u16 data = some v := by
  match data, h with
  | [b0, b1], _ => exact ⟨b0 % 256 + 256 * (b1 % 256), rfl⟩

/-- The state reached after a `read_service` call: one more datagram in the
trace, regardless of the decode outcome. -/
theorem read_service_state (bus : Bus) (st : BusState) (cmd : Command)
    (len : Nat) (dec : List Nat → Option α) :
    (read_service bus st cmd len dec).2 =
      ⟨st.time + 1, st.trace ++ [Event.pdu ⟨cmd, [], len⟩]⟩ := by
  simp only [read_service, pdu_tx]
  cases dec (bus st.time ⟨cmd, [], len⟩).1 <;> rfl

/-- The state reached after a `write_service` call: one more datagram in the
trace, regardless of the decode outcome. -/
theorem write_service_state (bus : Bus) (st : BusState) (cmd : Command)
    (payload : List Nat) (len : Nat) (dec : List Nat → Option α) :
    (write_service bus st cmd payload len dec).2 =
      ⟨st.time + 1, st.trace ++ [Event.pdu ⟨cmd, payload, len⟩]⟩ := by
  simp only [write_service, pdu_tx]
  cases dec (bus st.time ⟨cmd, payload, len⟩).1 <;> rfl

/-- `write_service` on a bus that echoes the payload, when the payload
itself decodes. -/
theorem write_service_echo (bus : Bus)
    (hbus : ∀ t req, (bus t req).1 = req.payload) (st : BusState)
    (cmd : Command) (payload : List Nat) (len : Nat)
    (dec : List Nat → Option α) (v : α) (hdec : dec payload = some v) :
    write_service bus st cmd payload len dec =
      (Except.ok (v, (bus st.time ⟨cmd, payload, len⟩).2),
        ⟨st.time + 1, st.trace ++ [Event.pdu ⟨cmd, payload, len⟩]⟩) := by
  simp only [write_service, pdu_tx]
  rw [hbus st.time ⟨cmd, payload, len⟩, hdec]

/-- On an echoing bus every zeroing chunk succeeds, and the chunk loop
appends exactly one broadcast-write datagram per chunk start. -/
theorem blank_chunks_echo (bus : Bus) (m : Nat)
    (hbus : ∀ t req, (bus t req).1 = req.payload) :
    ∀ (cs : List Nat) (st : BusState),
      blank_chunks bus m cs st =
        (Except.ok (), ⟨st.time + cs.length,
          st.trace ++ cs.map (fun c => Event.pdu (blank_chunk_req m c))⟩) := by
  intro cs
  induction cs with
  | nil => intro st; simp [blank_chunks]
  | cons c rest ih =>
    intro st
    rw [blank_chunks,
      write_service_echo bus hbus st (Command.Bwr 0 c) (List.replicate m 0) m
        (try_from_slice_bytes m) (List.replicate m 0)
        (by simp [try_from_slice_bytes])]
    dsimp only
    rw [ih]
    simp only [blank_chunk_req, List.map_cons, List.length_cons]
    refine congrArg (Prod.mk (Except.ok ())) ?_
    refine congrArg₂ BusState.mk (by omega) ?_
    simp [List.append_assoc]

/-- `reset_slaves` on an echoing bus: the `AlControl::reset()` broadcast
write followed by the FMMU zeroing chunks and then the SM zeroing chunks. -/
theorem reset_slaves_echo (bus : Bus) (m : Nat)
    (hbus : ∀ t req, (bus t req).1 = req.payload) (st : BusState) :
    reset_slaves bus m st =
      (Except.ok (), ⟨st.time + (1 + (chunk_starts regFmmu0 0xff m).length
          + (chunk_starts regSm0 0x7f m).length),
        st.trace ++ (Event.pdu reset_req ::
          ((chunk_starts regFmmu0 0xff m).map
              (fun c => Event.pdu (blank_chunk_req m c)) ++
            (chunk_starts regSm0 0x7f m).map
              (fun c => Event.pdu (blank_chunk_req m c))))⟩) := by
  rw [reset_slaves,
    write_service_echo bus hbus st (Command.Bwr 0 regAlControl)
      (AlControl.pack AlControl.reset) 2 try_from_slice_al_control
      AlControl.reset (al_control_unpack_pack _)]
  simp only [blank_memory, blank_chunks_echo bus m hbus]
  refine congrArg (Prod.mk (Except.ok ())) ?_
  refine congrArg₂ BusState.mk (by omega) ?_
  simp [reset_req, List.append_assoc]

/-- The union of the byte ranges written by the zeroing chunks is exactly
the interval from `start` of `⌈len / step⌉ * step` bytes. -/
theorem covered_iff (start len step a : Nat) (hstep : 0 < step) :
    covered start len step a ↔
      start ≤ a ∧ a < start + (len + step - 1) / step * step := by
  unfold covered chunk_starts
  constructor
  · rintro ⟨c, hc, hca, hac⟩
    simp only [List.mem_map, List.mem_range] at hc
    obtain ⟨i, hi, rfl⟩ := hc
    have h2 : (i + 1) * step ≤ (len + step - 1) / step * step :=
      Nat.mul_le_mul_right _ hi
    have h3 : (i + 1) * step = i * step + step := Nat.succ_mul i step
    constructor
    · omega
    · omega
  · rintro ⟨h1, h2⟩
    have hdn : a - start < (len + step - 1) / step * step := by omega
    have hidx : (a - start) / step < (len + step - 1) / step :=
      (Nat.div_lt_iff_lt_mul hstep).2 hdn
    refine ⟨start + (a - start) / step * step, ?_, ?_, ?_⟩
    · simp only [List.mem_map, List.mem_range]
      exact ⟨(a - start) / step, hidx, rfl⟩
    · have := Nat.div_mul_le_self (a - start) step
      omega
    · have hm := Nat.div_add_mod' (a - start) step
      have hlt : (a - start) % step < step := Nat.mod_lt _ hstep
      omega

/-- The chunk span covers the requested region. -/
theorem len_le_chunk_span (len step : Nat) (hstep : 0 < step) :
    len ≤ (len + step - 1) / step * step := by
  cases len with
  | zero => exact Nat.zero_le _
  | succ l =>
    have he : l + 1 + step - 1 = l + step := by omega
    rw [he, Nat.add_div_right _ hstep, Nat.succ_mul]
    have hm := Nat.div_add_mod' l step
    have hlt : l % step < step := Nat.mod_lt _ hstep
    omega

/-- The chunk span overshoots the requested region by less than one
chunk. -/
theorem chunk_span_le (len step : Nat) :
    (len + step - 1) / step * step ≤ len + step - 1 :=
  Nat.div_mul_le_self _ _

/-- A status poll whose response packs an `AlControl` value decodes to it. -/
theorem read_service_al_status (bus : Bus) (st : BusState) (s : SlaveState)
    (w : Nat) (h : bus st.time al_status_poll_req = (AlControl.pack ⟨s⟩, w)) :
    read_service bus st (Command.Brd 0 regAlStatus) 2 try_from_slice_al_control =
      (Except.ok (AlControl.mk s, w),
        ⟨st.time + 1, st.trace ++ [Event.pdu al_status_poll_req]⟩) := by
  have h' : bus st.time ⟨Command.Brd 0 regAlStatus, [], 2⟩ = (AlControl.pack ⟨s⟩, w) := h
  simp only [read_service, pdu_tx]
  rw [h', al_control_unpack_pack ⟨s⟩]
  rfl

/-- `wait_for_state` only ever appends to the trace. -/
theorem wait_for_state_trace_mono (bus : Bus) (num : Nat)
    (target : SlaveState) :
    ∀ (fuel : Nat) (st : BusState), ∃ tail,
      (wait_for_state bus num target fuel st).2.trace = st.trace ++ tail := by
  intro fuel
  induction fuel with
  | zero => intro st; exact ⟨[], by simp [wait_for_state]⟩
  | succ f ih =>
    intro st
    rw [wait_for_state]
    rcases hr : read_service bus st (Command.Brd 0 regAlStatus) 2
        try_from_slice_al_control with ⟨res, st1⟩
    have hst1 : st1.trace
        = st.trace ++ [Event.pdu ⟨Command.Brd 0 regAlStatus, [], 2⟩] := by
      have hh := read_service_state bus st (Command.Brd 0 regAlStatus) 2
        try_from_slice_al_control
      rw [hr] at hh
      dsimp only at hh
      rw [hh]
    cases res with
    | error e => exact ⟨_, hst1⟩
    | ok p =>
      rcases p with ⟨status, wkc⟩
      dsimp only
      rcases hcw : check_working_counter wkc num "read all slaves state"
        with e | u
      · exact ⟨_, hst1⟩
      · dsimp only
        by_cases hs : status.state = target
        · rw [if_pos hs]
          exact ⟨_, hst1⟩
        · rw [if_neg hs]
          obtain ⟨tail, htail⟩ := ih ⟨st1.time, st1.trace ++ [Event.delay 10]⟩
          refine ⟨Event.pdu ⟨Command.Brd 0 regAlStatus, [], 2⟩ ::
            Event.delay 10 :: tail, ?_⟩
          rw [htail]
          dsimp only
          rw [hst1]
          simp

/-- Success characterisation of `wait_for_state` when every poll carries the
expected working counter: it returns `Ok` exactly when some poll within the
timeout budget reports the desired state. -/
theorem wait_for_state_ok_iff (bus : Bus) (num : Nat) (target : SlaveState) :
    ∀ (fuel : Nat) (st : BusState) (s : Nat → SlaveState),
      (∀ j, bus (st.time + j) al_status_poll_req = (AlControl.pack ⟨s j⟩, num)) →
      ((wait_for_state bus num target fuel st).1 = Except.ok () ↔
        ∃ k, k < fuel ∧ s k = target) := by
  intro fuel
  induction fuel with
  | zero =>
    intro st s h
    simp [wait_for_state]
  | succ f ih =>
    intro st s h
    have h0 : bus st.time al_status_poll_req = (AlControl.pack ⟨s 0⟩, num) := by
      simpa using h 0
    have hcw : check_working_counter num num "read all slaves state"
        = Except.ok () := by
      simp [check_working_counter]
    rw [wait_for_state, read_service_al_status bus st (s 0) num h0]
    dsimp only
    rw [hcw]
    dsimp only
    by_cases hs : s 0 = target
    · rw [if_pos hs]
      constructor
      · intro _
        exact ⟨0, Nat.succ_pos f, hs⟩
      · intro _
        rfl
    · rw [if_neg hs]
      have h' : ∀ j, bus ((st.time + 1) + j) al_status_poll_req
          = (AlControl.pack ⟨s (j + 1)⟩, num) := by
        intro j
        have hj := h (j + 1)
        rwa [show st.time + (j + 1) = st.time + 1 + j by omega] at hj
      rw [ih ⟨st.time + 1,
        (st.trace ++ [Event.pdu al_status_poll_req]) ++ [Event.delay 10]⟩
        (fun j => s (j + 1)) h']
      constructor
      · rintro ⟨k, hk, hsk⟩
        exact ⟨k + 1, by omega, hsk⟩
      · rintro ⟨k, hk, hsk⟩
        cases k with
        | zero => exact absurd hsk hs
        | succ k => exact ⟨k, by omega, hsk⟩

/-- When the desired state is first reported on poll `k` (and every poll
carries the expected working counter), `wait_for_state` succeeds, emitting
`k + 1` polls separated by 10 ms delays. -/
theorem wait_for_state_ok_trace (bus : Bus) (num : Nat) (target : SlaveState) :
    ∀ (k fuel : Nat) (st : BusState) (s : Nat → SlaveState),
      (∀ j, bus (st.time + j) al_status_poll_req = (AlControl.pack ⟨s j⟩, num)) →
      (∀ j, j < k → s j ≠ target) → s k = target → k < fuel →
      wait_for_state bus num target fuel st =
        (Except.ok (), ⟨st.time + (k + 1), st.trace ++ poll_trace k⟩) := by
  intro k
  induction k with
  | zero =>
    intro fuel st s h hb hk hf
    cases fuel with
    | zero => omega
    | succ f =>
      have h0 : bus st.time al_status_poll_req = (AlControl.pack ⟨s 0⟩, num) := by
        simpa using h 0
      have hcw : check_working_counter num num "read all slaves state"
          = Except.ok () := by
        simp [check_working_counter]
      rw [wait_for_state, read_service_al_status bus st (s 0) num h0]
      dsimp only
      rw [hcw]
      dsimp only
      rw [if_pos hk]
      rfl
  | succ k ih =>
    intro fuel st s h hb hk hf
    cases fuel with
    | zero => omega
    | succ f =>
      have h0 : bus st.time al_status_poll_req = (AlControl.pack ⟨s 0⟩, num) := by
        simpa using h 0
      have hcw : check_working_counter num num "read all slaves state"
          = Except.ok () := by
        simp [check_working_counter]
      rw [wait_for_state, read_service_al_status bus st (s 0) num h0]
      dsimp only
      rw [hcw]
      dsimp only
      rw [if_neg (hb 0 (Nat.succ_pos k))]
      have h' : ∀ j, bus ((st.time + 1) + j) al_status_poll_req
          = (AlControl.pack ⟨s (j + 1)⟩, num) := by
        intro j
        have hj := h (j + 1)
        rwa [show st.time + (j + 1) = st.time + 1 + j by omega] at hj
      rw [ih f ⟨st.time + 1,
        (st.trace ++ [Event.pdu al_status_poll_req]) ++ [Event.delay 10]⟩
        (fun j => s (j + 1)) h' (fun j hj => hb (j + 1) (by omega)) hk
        (by omega)]
      refine congrArg (Prod.mk (Except.ok ())) ?_
      refine congrArg₂ BusState.mk (by dsimp only; omega) ?_
      rw [poll_trace]
      simp [List.append_assoc]

/-- If some poll before any success reports a bad working counter,
`wait_for_state` fails with the corresponding `WorkingCounter` error. -/
theorem wait_for_state_wkc_gate (bus : Bus) (num : Nat) (target : SlaveState) :
    ∀ (k fuel : Nat) (st : BusState) (s : Nat → SlaveState) (wk : Nat → Nat),
      (∀ j, bus (st.time + j) al_status_poll_req = (AlControl.pack ⟨s j⟩, wk j)) →
      (∀ j, j < k → wk j = num ∧ s j ≠ target) →
      wk k ≠ num → k < fuel →
      (wait_for_state bus num target fuel st).1 =
        Except.error (Error.WorkingCounter num (wk k)
          (some "read all slaves state")) := by
  intro k
  induction k with
  | zero =>
    intro fuel st s wk h hb hk hf
    cases fuel with
    | zero => omega
    | succ f =>
      have h0 : bus st.time al_status_poll_req
          = (AlControl.pack ⟨s 0⟩, wk 0) := by
        simpa using h 0
      rw [wait_for_state, read_service_al_status bus st (s 0) (wk 0) h0]
      dsimp only
      rw [check_working_counter, if_neg hk]
  | succ k ih =>
    intro fuel st s wk h hb hk hf
    cases fuel with
    | zero => omega
    | succ f =>
      have h0 : bus st.time al_status_poll_req
          = (AlControl.pack ⟨s 0⟩, wk 0) := by
        simpa using h 0
      have hcw : check_working_counter (wk 0) num "read all slaves state"
          = Except.ok () := by
        simp [check_working_counter, (hb 0 (Nat.succ_pos k)).1]
      rw [wait_for_state, read_service_al_status bus st (s 0) (wk 0) h0]
      dsimp only
      rw [hcw]
      dsimp only
      rw [if_neg (hb 0 (Nat.succ_pos k)).2]
      have h' : ∀ j, bus ((st.time + 1) + j) al_status_poll_req
          = (AlControl.pack ⟨s (j + 1)⟩, wk (j + 1)) := by
        intro j
        have hj := h (j + 1)
        rwa [show st.time + (j + 1) = st.time + 1 + j by omega] at hj
      exact ih f ⟨st.time + 1,
        (st.trace ++ [Event.pdu al_status_poll_req]) ++ [Event.delay 10]⟩
        (fun j => s (j + 1)) (fun j => wk (j + 1)) h'
        (fun j hj => hb (j + 1) (by omega)) hk (by omega)

/-- The first datagram of `request_slave_state` is always the `AlControl`
broadcast write. -/
theorem request_slave_state_head (bus : Bus) (client : Client)
    (target : SlaveState) (fuel : Nat) (st : BusState) :
    ∃ rest, (request_slave_state bus client target fuel st).2.trace =
      st.trace ++ Event.pdu (al_control_write_req target) :: rest := by
  rw [request_slave_state]
  rcases hw : write_service bus st (Command.Bwr 0 regAlControl)
      (AlControl.pack ⟨target⟩) 2 try_from_slice_al_control with ⟨res, st1⟩
  have hst1 : st1.trace
      = st.trace ++ [Event.pdu (al_control_write_req target)] := by
    have hh := write_service_state bus st (Command.Bwr 0 regAlControl)
      (AlControl.pack ⟨target⟩) 2 try_from_slice_al_control
    rw [hw] at hh
    dsimp only at hh
    rw [hh]
    rfl
  cases res with
  | error e => exact ⟨[], hst1⟩
  | ok p =>
    rcases p with ⟨a, wkc⟩
    dsimp only
    rcases hcw : check_working_counter wkc client.num_slaves
      "set all slaves state" with e | u
    · exact ⟨[], hst1⟩
    · dsimp only
      obtain ⟨tail, htail⟩ :=
        wait_for_state_trace_mono bus client.num_slaves target fuel st1
      refine ⟨tail, ?_⟩
      rw [htail, hst1]
      simp

/-- `request_slave_state` fails with a `WorkingCounter` error when the
broadcast write's working counter differs from `num_slaves`. -/
theorem request_slave_state_wkc_gate (bus : Bus) (client : Client)
    (target : SlaveState) (fuel : Nat) (st : BusState) (data : List Nat)
    (a : AlControl) (w : Nat)
    (h : bus st.time (al_control_write_req target) = (data, w))
    (hdec : try_from_slice_al_control data = some a)
    (hw : w ≠ client.num_slaves) :
    (request_slave_state bus client target fuel st).1 =
      Except.error (Error.WorkingCounter client.num_slaves w
        (some "set all slaves state")) := by
  have h' : bus st.time
      ⟨Command.Bwr 0 regAlControl, AlControl.pack ⟨target⟩, 2⟩ = (data, w) := h
  rw [request_slave_state]
  simp only [write_service, pdu_tx]
  rw [h', hdec]
  dsimp only
  rw [check_working_counter, if_neg hw]

/-- When the broadcast write's working counter matches, `request_slave_state`
reduces to `wait_for_state` from the post-write state. -/
theorem request_slave_state_pass (bus : Bus) (client : Client)
    (target : SlaveState) (fuel : Nat) (st : BusState) (data : List Nat)
    (a : AlControl)
    (h : bus st.time (al_control_write_req target) = (data, client.num_slaves))
    (hdec : try_from_slice_al_control data = some a) :
    request_slave_state bus client target fuel st =
      wait_for_state bus client.num_slaves target fuel
        ⟨st.time + 1, st.trace ++ [Event.pdu (al_control_write_req target)]⟩ := by
  have h' : bus st.time ⟨Command.Bwr 0 regAlControl, AlControl.pack ⟨target⟩, 2⟩
      = (data, client.num_slaves) := h
  have hcw : check_working_counter client.num_slaves client.num_slaves
      "set all slaves state" = Except.ok () := by
    simp [check_working_counter]
  rw [request_slave_state]
  simp only [write_service, pdu_tx]
  rw [h', hdec]
  dsimp only
  rw [hcw]
  rfl

/-- On success, the station-address loop emits exactly one APWR datagram per
index, in order. -/
theorem set_addresses_ok_trace (bus : Bus) :
    ∀ (r idx : Nat) (acc : List Slave) (st : BusState) (slaves : List Slave)
      (st' : BusState),
      set_addresses bus idx r acc st = (Except.ok slaves, st') →
      st'.trace = st.trace ++
        (List.range r).map (fun j => Event.pdu (set_address_req (idx + j))) := by
  intro r
  induction r with
  | zero =>
    intro idx acc st slaves st' h
    rw [set_addresses] at h
    injection h with h1 h2
    rw [← h2]
    simp
  | succ rr ih =>
    intro idx acc st slaves st' h
    rw [set_addresses] at h
    rcases hw : write_service bus st (apwr_command idx regConfiguredStationAddress)
        (u16_le_bytes (BASE_SLAVE_ADDR + idx)) 2 try_from_slice_u16
      with ⟨res, st1⟩
    have hst1 : st1.trace = st.trace ++ [Event.pdu (set_address_req idx)] := by
      have hh := write_service_state bus st
        (apwr_command idx regConfiguredStationAddress)
        (u16_le_bytes (BASE_SLAVE_ADDR + idx)) 2 try_from_slice_u16
      rw [hw] at hh
      dsimp only at hh
      rw [hh]
      rfl
    rw [hw] at h
    cases res with
    | error e => exact absurd h (by simp)
    | ok p =>
      rcases p with ⟨v, wkc⟩
      dsimp only at h
      rcases hcw : check_working_counter wkc 1 "set station address" with e | u
      · rw [hcw] at h
        exact absurd h (by simp)
      · rw [hcw] at h
        dsimp only at h
        have htr := ih (idx + 1) _ _ _ _ h
        rw [htr, hst1, List.range_succ_eq_map, List.map_cons, List.map_map]
        have hfun : ((fun j => Event.pdu (set_address_req (idx + j))) ∘ Nat.succ)
            = fun j => Event.pdu (set_address_req (idx + 1 + j)) := by
          funext j
          simp only [Function.comp]
          rw [show idx + Nat.succ j = idx + 1 + j by omega]
        rw [hfun]
        simp [List.append_assoc]

/-- If the working counters of the first `k` APWR datagrams are 1 and the
`k`-th is not, the station-address loop fails with the `WorkingCounter 1`
error from "set station address". -/
theorem set_addresses_wkc_gate (bus : Bus) :
    ∀ (k r idx : Nat) (acc : List Slave) (st : BusState),
      (∀ j, j ≤ k → (bus (st.time + j) (set_address_req (idx + j))).1.length = 2) →
      (∀ j, j < k → (bus (st.time + j) (set_address_req (idx + j))).2 = 1) →
      (bus (st.time + k) (set_address_req (idx + k))).2 ≠ 1 → k < r →
      (set_addresses bus idx r acc st).1 =
        Except.error (Error.WorkingCounter 1
          ((bus (st.time + k) (set_address_req (idx + k))).2)
          (some "set station address")) := by
  intro k
  induction k with
  | zero =>
    intro r idx acc st hlen hgood hbad hr
    cases r with
    | zero => omega
    | succ rr =>
      have h0 : (bus st.time (set_address_req idx)).1.length = 2 := by
        simpa using hlen 0 (Nat.zero_le 0)
      obtain ⟨v, hdec⟩ := try_from_slice_u16_of_len _ h0
      rw [set_addresses]
      simp only [write_service, pdu_tx]
      rw [show (⟨apwr_command idx regConfiguredStationAddress,
          u16_le_bytes (BASE_SLAVE_ADDR + idx), 2⟩ : Request)
          = set_address_req idx from rfl, hdec]
      dsimp only
      have hb : (bus st.time (set_address_req idx)).2 ≠ 1 := by
        simpa using hbad
      rw [check_working_counter, if_neg hb]
      simp
  | succ k ih =>
    intro r idx acc st hlen hgood hbad hr
    cases r with
    | zero => omega
    | succ rr =>
      have h0 : (bus st.time (set_address_req idx)).1.length = 2 := by
        simpa using hlen 0 (Nat.zero_le _)
      obtain ⟨v, hdec⟩ := try_from_slice_u16_of_len _ h0
      have hg0 : (bus st.time (set_address_req idx)).2 = 1 := by
        simpa using hgood 0 (Nat.succ_pos k)
      have hcw : check_working_counter (bus st.time (set_address_req idx)).2 1
          "set station address" = Except.ok () := by
        simp [check_working_counter, hg0]
      rw [set_addresses]
      simp only [write_service, pdu_tx]
      rw [show (⟨apwr_command idx regConfiguredStationAddress,
          u16_le_bytes (BASE_SLAVE_ADDR + idx), 2⟩ : Request)
          = set_address_req idx from rfl, hdec]
      dsimp only
      rw [hcw]
      dsimp only
      have hshift : ∀ (p : Nat → Prop),
          (∀ j, p (st.time + (j + 1))) → ∀ j, p (st.time + 1 + j) := by
        intro p hp j
        have := hp j
        rwa [show st.time + (j + 1) = st.time + 1 + j by omega] at this
      have hlen' : ∀ j, j ≤ k →
          (bus (st.time + 1 + j) (set_address_req (idx + 1 + j))).1.length = 2 := by
        intro j hj
        have := hlen (j + 1) (by omega)
        rwa [show st.time + (j + 1) = st.time + 1 + j by omega,
          show idx + (j + 1) = idx + 1 + j by omega] at this
      have hgood' : ∀ j, j < k →
          (bus (st.time + 1 + j) (set_address_req (idx + 1 + j))).2 = 1 := by
        intro j hj
        have := hgood (j + 1) (by omega)
        rwa [show st.time + (j + 1) = st.time + 1 + j by omega,
          show idx + (j + 1) = idx + 1 + j by omega] at this
      have hbad' :
          (bus (st.time + 1 + k) (set_address_req (idx + 1 + k))).2 ≠ 1 := by
        have hk := hbad
        rwa [show st.time + (k + 1) = st.time + 1 + k by omega,
          show idx + (k + 1) = idx + 1 + k by omega] at hk
      have hres := ih rr (idx + 1) (Slave.mk (BASE_SLAVE_ADDR + idx) :: acc)
        ⟨st.time + 1, st.trace ++ [Event.pdu (set_address_req idx)]⟩
        hlen' hgood' hbad' (by omega)
      rw [show st.time + (k + 1) = st.time + 1 + k by omega,
        show idx + (k + 1) = idx + 1 + k by omega]
      exact hres

/-- Dissection of a successful `init_discovery` run: the reset succeeds, the
recorded `num_slaves` is the working counter of the broadcast `Type` read,
and the station-address loop ran from the post-read state. -/
theorem init_discovery_ok (bus : Bus) (m : Nat) (c : Client) (st : BusState)
    (c' : Client) (slaves : List Slave) (st' : BusState)
    (h : init_discovery bus m c st = (Except.ok (c', slaves), st')) :
    ∃ st1, reset_slaves bus m st = (Except.ok (), st1) ∧
      c'.num_slaves = (bus st1.time ⟨Command.Brd 0 regType, [], 1⟩).2 ∧
      set_addresses bus 0 c'.num_slaves []
        ⟨st1.time + 1, st1.trace ++ [Event.pdu ⟨Command.Brd 0 regType, [], 1⟩]⟩
        = (Except.ok slaves, st') := by
  rw [init_discovery] at h
  rcases hr : reset_slaves bus m st with ⟨res0, st1⟩
  rw [hr] at h
  cases res0 with
  | error e => exact absurd h (by simp)
  | ok u =>
    cases u
    dsimp only at h
    refine ⟨st1, rfl, ?_⟩
    rw [read_service] at h
    simp only [pdu_tx] at h
    rcases hdec : try_from_slice_u8 (bus st1.time ⟨Command.Brd 0 regType, [], 1⟩).1
      with _ | v
    · rw [hdec] at h
      exact absurd h (by simp)
    · rw [hdec] at h
      dsimp only at h
      rcases hsa : set_addresses bus 0
          ((bus st1.time ⟨Command.Brd 0 regType, [], 1⟩).2) []
          ⟨st1.time + 1, st1.trace ++ [Event.pdu ⟨Command.Brd 0 regType, [], 1⟩]⟩
        with ⟨res2, st3⟩
      rw [hsa] at h
      cases res2 with
      | error e => exact absurd h (by simp)
      | ok sl =>
        dsimp only at h
        injection h with h1 h2
        injection h1 with h1
        injection h1 with ha hb
        subst h2
        subst hb
        rw [← ha]
        exact ⟨rfl, hsa⟩

/-! ## Claim theorems -/

/-- Claim C1: the `aprd` and `apwr` primitives encode the datagram's
auto-increment address field as `0u16.wrapping_sub(i)`; for every `u16`
index `i` that is `(65536 - i) % 65536`, so index 0 yields field 0 and
index 1 yields field 0xFFFF. -/
theorem C1_auto_increment_address_wrap (i register : Nat) (h : i < 65536) :
    (aprd_command i register).address = (65536 - i) % 65536 ∧
    (apwr_command i register).address = (65536 - i) % 65536 ∧
    (aprd_command 0 register).address = 0 ∧
    (apwr_command 0 register).address = 0 ∧
    (aprd_command 1 register).address = 0xFFFF ∧
    (apwr_command 1 register).address = 0xFFFF := by
  refine ⟨?_, ?_, rfl, rfl, rfl, rfl⟩ <;>
    simp [aprd_command, apwr_command, Command.address, wrapping_sub_u16,
      Nat.mod_eq_of_lt h]

/-- Witness for C1 at index 5 and register `ConfiguredStationAddress`. -/
theorem C1_witness :
    5 < 65536 ∧
    (aprd_command 5 regConfiguredStationAddress).address
      = (65536 - 5) % 65536 :=
  ⟨by decide, (C1_auto_increment_address_wrap 5 regConfiguredStationAddress
    (by decide)).1⟩

/-- Claim C2 (code bug): with `MAX_SUBDEVICES = 2` and a simulated bus whose
broadcast `Type` read returns working counter 3 (spec scenario S2), the
discovery phase of `init` succeeds, records `num_slaves = 3 > 2`, and never
produces `Error::TooManySlaves` — `init` takes no capacity parameter and no
code path in `src/` constructs that variant. -/
theorem C2_init_missing_capacity_check :
    (init_discovery busS2 16 ⟨0⟩ ⟨0, []⟩).1
      = Except.ok (⟨3⟩, [⟨0x1000⟩, ⟨0x1001⟩, ⟨0x1002⟩]) ∧ 2 < 3 := by
  decide

/-- Claim C8 counterexample: `MAX_FRAMES = 256` satisfies the claim's bound
`MAX_FRAMES ≤ 256`, yet the constructor's assertion rejects it
(`assert!(MAX_FRAMES <= u8::MAX.into())`, i.e. at most 255). -/
theorem C8_counterexample : 256 ≤ 256 ∧ Client.new 256 = none := by
  decide

/-- Claim C8 (amended): constructing a client is accepted for every
`MAX_FRAMES ≤ 255` (= `u8::MAX`), yielding a fresh client with
`num_slaves = 0`; `MAX_FRAMES = 256` is rejected by the assertion. -/
theorem C8_new_accepts (maxFrames : Nat) (h : maxFrames ≤ 255) :
    Client.new maxFrames = some ⟨0⟩ := by
  simp [Client.new, h]

/-- Witness for C8 at `MAX_FRAMES = 16`. -/
theorem C8_witness : Client.new 16 = some ⟨0⟩ :=
  C8_new_accepts 16 (by decide)

/-- Claim C9 (code bug): the EEPROM size computation of `dump-eeprom.rs` is
exact for the spec's example `v = 0x0007` (1024 bytes), but it is performed
in `u16`, so for `v = 0x003F` (a 64-kilobit EEPROM, bytes `3F 00`) the
product `(v + 1) * 1024 = 65536` wraps to 0 and the computed length is 0
instead of the exact `(63 + 1) * 1024 / 8 = 8192` the claim requires. -/
theorem C9_eeprom_len_overflow :
    eeprom_len_bytes 0x07 0x00 = 1024 ∧
    eeprom_len_bytes 0x3F 0x00 = 0 ∧
    (0x3F + 1) * 1024 / 8 = 8192 := by
  decide

/-- Claim C6 counterexample: with `MAX_PDU_DATA = 16`, `reset_slaves` emits
a zeroing chunk at register 0x6F0 carrying 16 zero bytes, which writes byte
0x6FF; the claimed FMMU region of 0xFF bytes from 0x0600 is
`[0x600, 0x6FF)`, so the union of written bytes strictly exceeds it. -/
theorem C6_counterexample :
    Event.pdu (blank_chunk_req 16 0x6F0)
      ∈ (reset_slaves bus_one 16 ⟨0, []⟩).2.trace ∧
    covered regFmmu0 0xff 16 0x6FF ∧ ¬ (0x6FF < regFmmu0 + 0xff) := by
  decide

/-- `lrw_buf` always emits exactly one LRW datagram, the one described by
`lrw_buf_req`. -/
theorem lrw_buf_trace (bus : Bus) (st : BusState) (address : Nat)
    (buf : List Nat) :
    (lrw_buf bus st address buf).2 =
      ⟨st.time + 1, st.trace ++ [Event.pdu (lrw_buf_req address buf)]⟩ := by
  simp only [lrw_buf, pdu_tx]
  split
  · rfl
  · rfl

/-- The expected-response-length field handed to the PDU loop by `lrw_buf`
is the buffer length truncated to `u16`. -/
theorem lrw_buf_req_expectedLen (address : Nat) (buf : List Nat) :
    (lrw_buf_req address buf).expectedLen = buf.length % 65536 := rfl

/-- Claim C7 counterexample: `lrw_buf` hands `value.len() as u16` to the
PDU loop, so for a 65536-byte buffer the single emitted LRW datagram
carries expected response length 0, not the buffer's length 65536. -/
theorem C7_counterexample :
    (lrw_buf bus_one ⟨0, []⟩ 0 (List.replicate 65536 0)).2.trace
      = [Event.pdu (lrw_buf_req 0 (List.replicate 65536 0))] ∧
    (lrw_buf_req 0 (List.replicate 65536 0)).expectedLen = 0 ∧
    (List.replicate 65536 0).length = 65536 :=
  ⟨(congrArg BusState.trace
      (lrw_buf_trace bus_one ⟨0, []⟩ 0 (List.replicate 65536 0))).trans rfl,
    ((lrw_buf_req_expectedLen 0 (List.replicate 65536 0)).trans
      (congrArg (fun n => n % 65536) (List.length_replicate 65536 0))).trans
      (Nat.mod_self 65536),
    List.length_replicate 65536 0⟩

/-- `lrw_buf` fails with `PduError::Decode`, leaving the buffer unmodified,
when the response length differs from the buffer length. -/
theorem lrw_buf_decode_err (bus : Bus) (st : BusState) (address : Nat)
    (buf : List Nat)
    (hne : (bus st.time (lrw_buf_req address buf)).1.length ≠ buf.length) :
    (lrw_buf bus st address buf).1 =
      (Except.error (Error.Pdu PduError.Decode), buf) := by
  simp only [lrw_buf, pdu_tx]
  rw [show (⟨Command.Lrw address, buf, buf.length % 65536⟩ : Request)
    = lrw_buf_req address buf from rfl]
  rw [if_pos hne]

/-- `lrw_buf` succeeds, copying the response into the buffer, when the
response length matches the buffer length. -/
theorem lrw_buf_ok (bus : Bus) (st : BusState) (address : Nat)
    (buf : List Nat)
    (heq : (bus st.time (lrw_buf_req address buf)).1.length = buf.length) :
    (lrw_buf bus st address buf).1 =
      (Except.ok (bus st.time (lrw_buf_req address buf)).2,
        (bus st.time (lrw_buf_req address buf)).1) := by
  simp only [lrw_buf, pdu_tx]
  rw [show (⟨Command.Lrw address, buf, buf.length % 65536⟩ : Request)
    = lrw_buf_req address buf from rfl]
  rw [if_neg (fun hc => hc heq)]

/-- Claim C7 (amended): for every buffer shorter than 2^16 bytes, `lrw_buf`
issues exactly one LRW datagram at the given logical address with expected
response length equal to the buffer's length (for longer buffers that field
is the length truncated to `u16`); it never silently truncates: a response
of a different length yields `PduError::Decode` with the buffer left
unmodified, and on success the buffer holds exactly the response payload,
returned with the working counter. -/
theorem C7_lrw_buf_no_truncation (bus : Bus) (st : BusState) (address : Nat)
    (buf : List Nat) (hlen : buf.length < 65536) :
    (lrw_buf bus st address buf).2 =
      ⟨st.time + 1,
        st.trace ++ [Event.pdu ⟨Command.Lrw address, buf, buf.length⟩]⟩ ∧
    ((bus st.time (lrw_buf_req address buf)).1.length ≠ buf.length →
      (lrw_buf bus st address buf).1 =
        (Except.error (Error.Pdu PduError.Decode), buf)) ∧
    ((bus st.time (lrw_buf_req address buf)).1.length = buf.length →
      (lrw_buf bus st address buf).1 =
        (Except.ok (bus st.time (lrw_buf_req address buf)).2,
          (bus st.time (lrw_buf_req address buf)).1)) := by
  have hmod : buf.length % 65536 = buf.length := Nat.mod_eq_of_lt hlen
  refine ⟨?_, lrw_buf_decode_err bus st address buf,
    lrw_buf_ok bus st address buf⟩
  rw [lrw_buf_trace bus st address buf,
    show lrw_buf_req address buf
      = ⟨Command.Lrw address, buf, buf.length % 65536⟩ from rfl,
    hmod]

/-- Witness for C7 with the 3-byte buffer `[1, 2, 3]`: a full 3-byte
response is copied into the buffer, a short response yields `Decode` and
leaves the buffer unchanged. -/
theorem C7_witness :
    (lrw_buf bus_lrw_full ⟨0, []⟩ 7 [1, 2, 3]).1 = (Except.ok 9, [4, 5, 6]) ∧
    (lrw_buf bus_lrw_short ⟨0, []⟩ 7 [1, 2, 3]).1
      = (Except.error (Error.Pdu PduError.Decode), [1, 2, 3]) := by
  have h1 := C7_lrw_buf_no_truncation bus_lrw_full ⟨0, []⟩ 7 [1, 2, 3]
    (by decide)
  have h2 := C7_lrw_buf_no_truncation bus_lrw_short ⟨0, []⟩ 7 [1, 2, 3]
    (by decide)
  exact ⟨h1.2.2 (by decide), h2.2.1 (by decide)⟩

/-- Claim C6 (amended): `reset_slaves` first broadcast-writes
`AlControl::reset()` to all nodes, then blanks the FMMU region and then the
SM region in broadcast-write chunks starting every `MAX_PDU_DATA` registers,
each chunk carrying exactly `MAX_PDU_DATA` zero bytes; the union of the
written bytes equals `[start, start + ceil(len / MAX_PDU_DATA) *
MAX_PDU_DATA)`, which covers the stated region (0xFF bytes at 0x0600, 0x7F
bytes at 0x0800) but may overshoot it by up to `MAX_PDU_DATA - 1` bytes. -/
theorem C6_reset_and_blank (bus : Bus) (m : Nat) (st : BusState)
    (hm : 0 < m) (hbus : ∀ t req, (bus t req).1 = req.payload) :
    reset_slaves bus m st =
      (Except.ok (), ⟨st.time + (1 + (chunk_starts regFmmu0 0xff m).length
          + (chunk_starts regSm0 0x7f m).length),
        st.trace ++ (Event.pdu reset_req ::
          ((chunk_starts regFmmu0 0xff m).map
              (fun c => Event.pdu (blank_chunk_req m c)) ++
            (chunk_starts regSm0 0x7f m).map
              (fun c => Event.pdu (blank_chunk_req m c))))⟩) ∧
    (∀ a, covered regFmmu0 0xff m a ↔
      regFmmu0 ≤ a ∧ a < regFmmu0 + (0xff + m - 1) / m * m) ∧
    (∀ a, covered regSm0 0x7f m a ↔
      regSm0 ≤ a ∧ a < regSm0 + (0x7f + m - 1) / m * m) ∧
    0xff ≤ (0xff + m - 1) / m * m ∧ (0xff + m - 1) / m * m ≤ 0xff + m - 1 ∧
    0x7f ≤ (0x7f + m - 1) / m * m ∧ (0x7f + m - 1) / m * m ≤ 0x7f + m - 1 :=
  ⟨reset_slaves_echo bus m hbus st,
    fun a => covered_iff regFmmu0 0xff m a hm,
    fun a => covered_iff regSm0 0x7f m a hm,
    len_le_chunk_span 0xff m hm, chunk_span_le 0xff m,
    len_le_chunk_span 0x7f m hm, chunk_span_le 0x7f m⟩

/-- Witness for C6 at `MAX_PDU_DATA = 16` on the echoing bus. -/
theorem C6_witness :
    (reset_slaves bus_one 16 ⟨0, []⟩).1 = Except.ok () ∧
    covered regFmmu0 0xff 16 0x6FE ∧
    0xff ≤ (0xff + 16 - 1) / 16 * 16 := by
  have h := C6_reset_and_blank bus_one 16 ⟨0, []⟩ (by decide)
    (fun t req => rfl)
  refine ⟨?_, ?_, h.2.2.2.1⟩
  · rw [h.1]
  · exact (h.2.1 0x6FE).2 (by decide)

/-- Claim C5: if the first `AlStatus` broadcast read already reports the
desired state with working counter `num_slaves`, `wait_for_state` succeeds
after that single poll: exactly one datagram is appended to the trace and no
10 ms inter-poll delay event is emitted. -/
theorem C5_wait_for_state_immediate (bus : Bus) (num : Nat)
    (target : SlaveState) (fuel : Nat) (st : BusState)
    (h : bus st.time al_status_poll_req = (AlControl.pack ⟨target⟩, num)) :
    wait_for_state bus num target (fuel + 1) st =
      (Except.ok (),
        ⟨st.time + 1, st.trace ++ [Event.pdu al_status_poll_req]⟩) ∧
    (∀ ms, Event.delay ms ∉ ([Event.pdu al_status_poll_req] : List Event)) := by
  constructor
  · have hcw : check_working_counter num num "read all slaves state"
        = Except.ok () := by
      simp [check_working_counter]
    rw [wait_for_state, read_service_al_status bus st target num h]
    dsimp only
    rw [hcw]
    dsimp only
    rw [if_pos rfl]
  · intro ms
    simp

/-- Witness for C5: two sub-devices already in SafeOp answer the first
poll; `wait_for_state` returns after one datagram and no delay. -/
theorem C5_witness :
    wait_for_state busC5 2 SlaveState.safeOp 4 ⟨0, []⟩ =
      (Except.ok (), ⟨1, [Event.pdu al_status_poll_req]⟩) :=
  (C5_wait_for_state_immediate busC5 2 SlaveState.safeOp 3 ⟨0, []⟩ rfl).1

/-- Claim C3: on a successful `init_discovery`, for every index `i` below
the recorded `num_slaves` the trace contains the APWR datagram addressed by
auto-increment index `i` writing `BASE_SLAVE_ADDR + i` to
`ConfiguredStationAddress`; and whenever the working counter returned for
the APWR at some index is not 1 (all earlier ones being 1), the loop fails
with `WorkingCounter { expected: 1, received }` ("set station address"). -/
theorem C3_station_address_assignment :
    (∀ (bus : Bus) (m : Nat) (c : Client) (st : BusState) (c' : Client)
      (slaves : List Slave) (st' : BusState),
      init_discovery bus m c st = (Except.ok (c', slaves), st') →
      ∀ i, i < c'.num_slaves → Event.pdu (set_address_req i) ∈ st'.trace) ∧
    (∀ (bus : Bus) (st : BusState) (n k : Nat),
      (∀ j, j ≤ k → (bus (st.time + j) (set_address_req j)).1.length = 2) →
      (∀ j, j < k → (bus (st.time + j) (set_address_req j)).2 = 1) →
      (bus (st.time + k) (set_address_req k)).2 ≠ 1 → k < n →
      (set_addresses bus 0 n [] st).1 =
        Except.error (Error.WorkingCounter 1
          ((bus (st.time + k) (set_address_req k)).2)
          (some "set station address"))) := by
  constructor
  · intro bus m c st c' slaves st' h i hi
    obtain ⟨st1, hreset, hnum, hsa⟩ := init_discovery_ok bus m c st c' slaves st' h
    have htr := set_addresses_ok_trace bus c'.num_slaves 0 [] _ slaves st' hsa
    rw [htr]
    refine List.mem_append_right _ ?_
    refine List.mem_map.2 ⟨i, List.mem_range.2 hi, ?_⟩
    rw [Nat.zero_add]
  · intro bus st n k hlen hgood hbad hn
    have hlen' : ∀ j, j ≤ k →
        (bus (st.time + j) (set_address_req (0 + j))).1.length = 2 := by
      intro j hj
      rw [Nat.zero_add]
      exact hlen j hj
    have hgood' : ∀ j, j < k →
        (bus (st.time + j) (set_address_req (0 + j))).2 = 1 := by
      intro j hj
      rw [Nat.zero_add]
      exact hgood j hj
    have hbad' : (bus (st.time + k) (set_address_req (0 + k))).2 ≠ 1 := by
      rw [Nat.zero_add]
      exact hbad
    have hres := set_addresses_wkc_gate bus k n 0 [] st hlen' hgood' hbad' hn
    rwa [Nat.zero_add] at hres

/-- Witness for C3: on the S1/S2 bus the third APWR (index 2, address
0x1002) appears in the successful discovery trace; on a bus whose working
counters are all 0 the loop fails with `WorkingCounter 1 0`. -/
theorem C3_witness :
    Event.pdu (set_address_req 2)
      ∈ (init_discovery busS2 16 ⟨0⟩ ⟨0, []⟩).2.trace ∧
    (set_addresses bus_zero 0 3 [] ⟨0, []⟩).1 =
      Except.error (Error.WorkingCounter 1 0 (some "set station address")) := by
  constructor
  · have h1 : (init_discovery busS2 16 ⟨0⟩ ⟨0, []⟩).1
        = Except.ok (⟨3⟩, [⟨0x1000⟩, ⟨0x1001⟩, ⟨0x1002⟩]) := by decide
    have hinit : init_discovery busS2 16 ⟨0⟩ ⟨0, []⟩
        = (Except.ok ((⟨3⟩ : Client),
            [(⟨0x1000⟩ : Slave), ⟨0x1001⟩, ⟨0x1002⟩]),
          (init_discovery busS2 16 ⟨0⟩ ⟨0, []⟩).2) := by
      rw [← h1]
    exact C3_station_address_assignment.1 busS2 16 ⟨0⟩ ⟨0, []⟩ ⟨3⟩ _ _ hinit 2
      (by decide)
  · exact C3_station_address_assignment.2 bus_zero ⟨0, []⟩ 3 0
      (fun j hj => by
        rcases Nat.le_zero.mp hj with rfl
        decide)
      (fun j hj => absurd hj (Nat.not_lt_zero j))
      (by decide) (by decide)

/-- Claim C4: `request_slave_state(target)` first broadcast-writes
`AlControl` with the target state and fails with `WorkingCounter` (expected
`num_slaves`) if that write's counter differs; it then polls `AlStatus` by
broadcast read (a 10 ms delay event between consecutive polls, the whole
loop bounded by the source's 5000 ms timeout, modelled as the poll budget
`fuel`), checks each poll's counter against `num_slaves`, and succeeds
exactly when some poll's returned state equals the target. -/
theorem C4_request_slave_state_protocol (bus : Bus) (client : Client)
    (target : SlaveState) (fuel : Nat) (st : BusState) :
    (∃ rest, (request_slave_state bus client target fuel st).2.trace =
      st.trace ++ Event.pdu (al_control_write_req target) :: rest) ∧
    (∀ data a w, bus st.time (al_control_write_req target) = (data, w) →
      try_from_slice_al_control data = some a → w ≠ client.num_slaves →
      (request_slave_state bus client target fuel st).1 =
        Except.error (Error.WorkingCounter client.num_slaves w
          (some "set all slaves state"))) ∧
    (∀ (s : Nat → SlaveState) data a,
      bus st.time (al_control_write_req target) = (data, client.num_slaves) →
      try_from_slice_al_control data = some a →
      (∀ j, bus (st.time + 1 + j) al_status_poll_req
        = (AlControl.pack ⟨s j⟩, client.num_slaves)) →
      ((request_slave_state bus client target fuel st).1 = Except.ok () ↔
        ∃ k, k < fuel ∧ s k = target)) ∧
    (∀ (s : Nat → SlaveState) (wk : Nat → Nat) (k : Nat) data a,
      bus st.time (al_control_write_req target) = (data, client.num_slaves) →
      try_from_slice_al_control data = some a →
      (∀ j, bus (st.time + 1 + j) al_status_poll_req
        = (AlControl.pack ⟨s j⟩, wk j)) →
      (∀ j, j < k → wk j = client.num_slaves ∧ s j ≠ target) →
      wk k ≠ client.num_slaves → k < fuel →
      (request_slave_state bus client target fuel st).1 =
        Except.error (Error.WorkingCounter client.num_slaves (wk k)
          (some "read all slaves state"))) ∧
    (∀ (s : Nat → SlaveState) (k : Nat) data a,
      bus st.time (al_control_write_req target) = (data, client.num_slaves) →
      try_from_slice_al_control data = some a →
      (∀ j, bus (st.time + 1 + j) al_status_poll_req
        = (AlControl.pack ⟨s j⟩, client.num_slaves)) →
      (∀ j, j < k → s j ≠ target) → s k = target → k < fuel →
      (request_slave_state bus client target fuel st).2.trace =
        st.trace ++ Event.pdu (al_control_write_req target) :: poll_trace k) := by
  refine ⟨request_slave_state_head bus client target fuel st,
    ?_, ?_, ?_, ?_⟩
  · intro data a w hbwr hdec hw
    exact request_slave_state_wkc_gate bus client target fuel st data a w
      hbwr hdec hw
  · intro s data a hbwr hdec hpoll
    rw [request_slave_state_pass bus client target fuel st data a hbwr hdec]
    exact wait_for_state_ok_iff bus client.num_slaves target fuel
      ⟨st.time + 1, st.trace ++ [Event.pdu (al_control_write_req target)]⟩
      s hpoll
  · intro s wk k data a hbwr hdec hpoll hfirst hbad hk
    rw [request_slave_state_pass bus client target fuel st data a hbwr hdec]
    exact wait_for_state_wkc_gate bus client.num_slaves target k fuel
      ⟨st.time + 1, st.trace ++ [Event.pdu (al_control_write_req target)]⟩
      s wk hpoll hfirst hbad hk
  · intro s k data a hbwr hdec hpoll hbefore hk hfuel
    rw [request_slave_state_pass bus client target fuel st data a hbwr hdec,
      wait_for_state_ok_trace bus client.num_slaves target k fuel
        ⟨st.time + 1, st.trace ++ [Event.pdu (al_control_write_req target)]⟩
        s hpoll hbefore hk hfuel]
    simp [List.append_assoc]

/-- Witness for C4: two sub-devices, the broadcast write echoes with
counter 2, the first poll reports Init and the second SafeOp; the request
succeeds. -/
theorem C4_witness :
    (request_slave_state busC4 ⟨2⟩ SlaveState.safeOp 5 ⟨0, []⟩).1
      = Except.ok () := by
  have h := (C4_request_slave_state_protocol busC4 ⟨2⟩ SlaveState.safeOp 5
    ⟨0, []⟩).2.2.1
    (fun j => if 2 ≤ 1 + j then SlaveState.safeOp else SlaveState.init)
    (AlControl.pack ⟨SlaveState.safeOp⟩) ⟨SlaveState.safeOp⟩
    rfl (al_control_unpack_pack ⟨SlaveState.safeOp⟩) (fun j => rfl)
  exact h.2 ⟨1, by omega, by decide⟩

/-- Claim C10: a freshly constructed client records `num_slaves = 0`, so
`num_slaves()` returns 0 before any successful init; before init,
`request_slave_state` and `wait_for_state` validate every broadcast working
counter against the expected value 0; after a successful init,
`num_slaves()` returns exactly the working counter of that init's broadcast
`Type` read. -/
theorem C10_num_slaves_lifecycle :
    (∀ maxFrames c, Client.new maxFrames = some c →
      Client.num_slaves_fn c = 0) ∧
    (∀ (bus : Bus) (target : SlaveState) (fuel : Nat) (st : BusState)
      (data : List Nat) (a : AlControl) (w : Nat),
      bus st.time (al_control_write_req target) = (data, w) →
      try_from_slice_al_control data = some a → w ≠ 0 →
      (request_slave_state bus ⟨0⟩ target fuel st).1 =
        Except.error (Error.WorkingCounter 0 w (some "set all slaves state"))) ∧
    (∀ (bus : Bus) (target : SlaveState) (k fuel : Nat) (st : BusState)
      (s : Nat → SlaveState) (wk : Nat → Nat),
      (∀ j, bus (st.time + j) al_status_poll_req
        = (AlControl.pack ⟨s j⟩, wk j)) →
      (∀ j, j < k → wk j = 0 ∧ s j ≠ target) → wk k ≠ 0 → k < fuel →
      (wait_for_state bus 0 target fuel st).1 =
        Except.error (Error.WorkingCounter 0 (wk k)
          (some "read all slaves state"))) ∧
    (∀ (bus : Bus) (m : Nat) (c : Client) (st : BusState) (c' : Client)
      (slaves : List Slave) (st' : BusState),
      init_discovery bus m c st = (Except.ok (c', slaves), st') →
      ∃ st1, reset_slaves bus m st = (Except.ok (), st1) ∧
        Client.num_slaves_fn c'
          = (bus st1.time ⟨Command.Brd 0 regType, [], 1⟩).2) := by
  refine ⟨?_, ?_, ?_, ?_⟩
  · intro maxFrames c h
    rw [Client.new] at h
    by_cases hf : maxFrames ≤ 255
    · rw [if_pos hf] at h
      injection h with h
      rw [← h]
      rfl
    · rw [if_neg hf] at h
      exact absurd h (by simp)
  · intro bus target fuel st data a w hbwr hdec hw
    exact request_slave_state_wkc_gate bus ⟨0⟩ target fuel st data a w
      hbwr hdec hw
  · intro bus target k fuel st s wk hpoll hfirst hbad hk
    exact wait_for_state_wkc_gate bus 0 target k fuel st s wk
      hpoll hfirst hbad hk
  · intro bus m c st c' slaves st' h
    obtain ⟨st1, hreset, hnum, _⟩ := init_discovery_ok bus m c st c' slaves st' h
    exact ⟨st1, hreset, hnum⟩

/-- Witness for C10: a fresh client reads back 0 sub-devices; before init a
broadcast write answered with counter 1 fails against the expected 0; after
the S2 discovery the recorded count is the `Type` read's counter 3. -/
theorem C10_witness :
    Client.num_slaves_fn ⟨0⟩ = 0 ∧
    (request_slave_state bus_one ⟨0⟩ SlaveState.safeOp 5 ⟨0, []⟩).1 =
      Except.error (Error.WorkingCounter 0 1 (some "set all slaves state")) ∧
    (∃ st1, reset_slaves busS2 16 ⟨0, []⟩ = (Except.ok (), st1) ∧
      Client.num_slaves_fn ⟨3⟩
        = (busS2 st1.time ⟨Command.Brd 0 regType, [], 1⟩).2) := by
  refine ⟨?_, ?_, ?_⟩
  · exact C10_num_slaves_lifecycle.1 16 ⟨0⟩ rfl
  · exact C10_num_slaves_lifecycle.2.1 bus_one SlaveState.safeOp 5 ⟨0, []⟩
      (AlControl.pack ⟨SlaveState.safeOp⟩) ⟨SlaveState.safeOp⟩ 1 rfl
      (al_control_unpack_pack ⟨SlaveState.safeOp⟩) (by decide)
  · have h1 : (init_discovery busS2 16 ⟨0⟩ ⟨0, []⟩).1
        = Except.ok (⟨3⟩, [⟨0x1000⟩, ⟨0x1001⟩, ⟨0x1002⟩]) := by decide
    have hinit : init_discovery busS2 16 ⟨0⟩ ⟨0, []⟩
        = (Except.ok ((⟨3⟩ : Client),
            [(⟨0x1000⟩ : Slave), ⟨0x1001⟩, ⟨0x1002⟩]),
          (init_discovery busS2 16 ⟨0⟩ ⟨0, []⟩).2) := by
      rw [← h1]
    exact C10_num_slaves_lifecycle.2.2.2 busS2 16 ⟨0⟩ ⟨0, []⟩ ⟨3⟩ _ _ hinit

end Ethercrab
